import Mathlib

/-! Verification of the valuation-toolkit core against its specification.

The numerical routines of `src/valuation/dcf.py`, the DDM and peer-scoring
code of `src/app.py`, and the sensitivity grid of
`src/visualizations/charts.py` are shallowly embedded over `ℚ`
(exact rationals standing for the Python floats; the peer-scoring z-scores
live in `ℝ` because the sample standard deviation takes a square root).
Python's float NaN that arises from a zero standard deviation, and is then
replaced by `fillna(0)`, is modelled by the explicit zero-variance branch of
`zScoreFilled`.
-/

namespace ValuationToolkit

/-- Embeds `project_cash_flows` from `src/valuation/dcf.py`:
`[cash_flows * ((1 + growth_rate) ** i) for i in range(1, years + 1)]`. -/
def project_cash_flows (cash_flows growth_rate : ℚ) (years : ℕ) : List ℚ :=
  (List.range years).map (fun i => cash_flows * (1 + growth_rate) ^ (i + 1))

/-- Embeds `calculate_terminal_value_gordon` from `src/valuation/dcf.py`:
`(fcf * (1 + terminal_growth)) / (discount_rate - terminal_growth)`,
with no precondition check of any kind. -/
def calculate_terminal_value_gordon (fcf terminal_growth discount_rate : ℚ) : ℚ :=
  (fcf * (1 + terminal_growth)) / (discount_rate - terminal_growth)

/-- Embeds `calculate_terminal_value_exit_multiple` from `src/valuation/dcf.py`. -/
def calculate_terminal_value_exit_multiple (fcf exit_multiple : ℚ) : ℚ :=
  fcf * exit_multiple

/-- Embeds `discounted_cash_flows` from `src/valuation/dcf.py`:
`sum([cf / ((1 + discount_rate) ** (i + 1)) for i, cf in enumerate(projected)])
 + terminal / ((1 + discount_rate) ** len(projected))`. -/
def discounted_cash_flows (projected : List ℚ) (terminal discount_rate : ℚ) : ℚ :=
  (projected.enum.map (fun p => p.2 / (1 + discount_rate) ^ (p.1 + 1))).sum
    + terminal / (1 + discount_rate) ^ projected.length

/-- Sum over an enumerated list rewritten as a sum over positions. -/
lemma sum_map_enumFrom_eq (f : ℕ → ℚ → ℚ) :
    ∀ (l : List ℚ) (k : ℕ),
      ((l.enumFrom k).map (fun p => f p.1 p.2)).sum
        = ∑ i in Finset.range l.length, f (k + i) (l.getD i 0) := by
  intro l
  induction l with
  | nil => intro k; simp
  | cons a l ih =>
    intro k
    rw [List.enumFrom_cons, List.map_cons, List.sum_cons, ih (k + 1)]
    rw [List.length_cons, Finset.sum_range_succ']
    simp only [List.getD_cons_succ, List.getD_cons_zero, Nat.add_zero]
    rw [add_comm]
    congr 1
    refine Finset.sum_congr rfl (fun i _ => ?_)
    congr 1
    omega

/-- Sum over `List.enum` rewritten as a sum over positions. -/
lemma sum_map_enum_eq (f : ℕ → ℚ → ℚ) (l : List ℚ) :
    (l.enum.map (fun p => f p.1 p.2)).sum
      = ∑ i in Finset.range l.length, f i (l.getD i 0) := by
  have h := sum_map_enumFrom_eq f l 0
  simpa using h

/-- Positions of a projected cash-flow series. -/
lemma project_cash_flows_getD (c0 g : ℚ) (n i : ℕ) (h : i < n) :
    (project_cash_flows c0 g n).getD i 0 = c0 * (1 + g) ^ (i + 1) := by
  unfold project_cash_flows
  rw [List.getD_eq_getElem _ _ (by simpa using h)]
  simp

/-- Position `i` of a mapped range, `i` in bounds. -/
lemma range_map_getD (f : ℕ → ℚ) (n i : ℕ) (h : i < n) :
    ((List.range n).map f).getD i 0 = f i := by
  rw [List.getD_eq_getElem _ _ (by simpa using h)]
  simp

/-- Last element of a non-empty mapped range (models Python `xs[-1]`). -/
lemma range_map_getLast (f : ℕ → ℚ) (n : ℕ) (h : 1 ≤ n) :
    ((List.range n).map f).getLast?.getD 0 = f (n - 1) := by
  obtain ⟨m, rfl⟩ : ∃ m, n = m + 1 := ⟨n - 1, by omega⟩
  rw [List.range_succ, List.map_append]
  simp

/-- Embeds the Multi-Stage DDM computation of `src/app.py` (lines 288-293):
`dividends = [dividend * ((1 + initial_growth) ** i) for i in range(1, div_years + 1)]`,
`terminal_dividend = dividends[-1] * (1 + terminal_growth)`,
`terminal_value = terminal_dividend / (discount_rate - terminal_growth)`,
`present_value = sum([d / ((1 + discount_rate) ** (i + 1)) for i, d in enumerate(dividends)])`,
`present_terminal = terminal_value / ((1 + discount_rate) ** div_years)`,
result `present_value + present_terminal`.  Python's `dividends[-1]` (which
raises on an empty list, never reached for `div_years ≥ 1`) is modelled by
`getLast?.getD 0`. -/
def ddm_multi_stage (dividend initial_growth terminal_growth discount_rate : ℚ)
    (div_years : ℕ) : ℚ :=
  let dividends := (List.range div_years).map (fun i => dividend * (1 + initial_growth) ^ (i + 1))
  let terminal_dividend := dividends.getLast?.getD 0 * (1 + terminal_growth)
  let terminal_value := terminal_dividend / (discount_rate - terminal_growth)
  let present_value := (dividends.enum.map (fun p => p.2 / (1 + discount_rate) ^ (p.1 + 1))).sum
  let present_terminal := terminal_value / (1 + discount_rate) ^ div_years
  present_value + present_terminal

/-- Embeds the market comparison of `src/app.py` (lines 274, 296):
`comparison = "Undervalued" if value > current_price else "Overvalued"`. -/
def valuation_label (value current_price : ℚ) : String :=
  if value > current_price then "Undervalued" else "Overvalued"

/-- Embeds the DCF market comparison of `src/app.py` (lines 122-129):
`implied_price = total_value / shares_outstanding`, labelled `Undervalued`
when `implied_price > market_price`, else `Overvalued`. -/
def dcf_valuation_label (total_value shares_outstanding market_price : ℚ) : String :=
  if total_value / shares_outstanding > market_price then "Undervalued" else "Overvalued"

/-- Claim C1: the spec requires `calculate_terminal_value_gordon` to signal an
InvalidAssumption condition whenever `discount_rate ≤ terminal_growth`.  The
code has no such guard: at `fcf = 100`, `terminal_growth = 0.05`,
`discount_rate = 0.03` it returns the plain negative number `-5250`
(and for `discount_rate = terminal_growth` Python raises an unguarded
ZeroDivisionError). -/
theorem C1_code_eval :
    calculate_terminal_value_gordon 100 (5/100) (3/100) = -5250
      ∧ calculate_terminal_value_gordon 100 (5/100) (3/100) < 0 := by
  constructor <;> norm_num [calculate_terminal_value_gordon]

/-- Claim C2: `project_cash_flows C0 g n` has length exactly `n` and its
element at index `i - 1` equals `C0 * (1+g)^i` for every `i` in `1..n`. -/
theorem C2_projection_correct (c0 g : ℚ) (n : ℕ) :
    (project_cash_flows c0 g n).length = n
      ∧ ∀ i : ℕ, 1 ≤ i → i ≤ n →
          (project_cash_flows c0 g n).getD (i - 1) 0 = c0 * (1 + g) ^ i := by
  constructor
  · simp [project_cash_flows]
  · intro i h1 h2
    have hlt : i - 1 < n := by omega
    rw [project_cash_flows_getD c0 g n (i - 1) hlt]
    have hsucc : i - 1 + 1 = i := by omega
    rw [hsucc]

/-- Witness for C2 at `C0 = 100`, `g = 1/10`, `n = 5`, `i = 3`. -/
theorem C2_projection_correct_witness :
    (project_cash_flows 100 (1/10) 5).getD 2 0 = 100 * (1 + 1/10) ^ 3 :=
  (C2_projection_correct 100 (1/10) 5).2 3 (by norm_num) (by norm_num)

/-- Claim C4: the spec requires `discounted_cash_flows` to signal an
InvalidAssumption condition on an empty cash-flow series.  The code has no
such guard: with `projected = []`, `terminal = 500`, `r = 0.10` it returns
the terminal value `500` undiscounted. -/
theorem C4_code_eval :
    discounted_cash_flows [] 500 (1/10) = 500 := by
  norm_num [discounted_cash_flows]

/-- The discounting engine, rewritten as a positional sum. -/
lemma dcf_sum_formula (cfs : List ℚ) (tv r : ℚ) :
    discounted_cash_flows cfs tv r
      = (∑ i in Finset.range cfs.length, cfs.getD i 0 / (1 + r) ^ (i + 1))
        + tv / (1 + r) ^ cfs.length := by
  unfold discounted_cash_flows
  rw [sum_map_enum_eq (fun i cf => cf / (1 + r) ^ (i + 1)) cfs]

/-- The end-to-end example series evaluated explicitly. -/
lemma project_series_eval :
    project_cash_flows 100 (1/10) 5 = [110, 121, 1331/10, 14641/100, 161051/1000] := by
  unfold project_cash_flows
  rw [show List.range 5 = [0, 1, 2, 3, 4] from rfl]
  simp only [List.map_cons, List.map_nil]
  norm_num

/-- The end-to-end example present value evaluated exactly. -/
lemma dcf_concrete_eval :
    discounted_cash_flows (project_cash_flows 100 (1/10) 5)
      (calculate_terminal_value_gordon
        ((project_cash_flows 100 (1/10) 5).getLast?.getD 0) (2/100) (1/10)) (1/10)
      = 1775 := by
  rw [project_series_eval]
  rw [show ([110, 121, 1331/10, 14641/100, 161051/1000] : List ℚ).getLast?.getD 0
        = 161051/1000 from rfl]
  unfold discounted_cash_flows calculate_terminal_value_gordon
  simp only [List.enum, List.enumFrom, List.map_cons, List.map_nil, List.sum_cons,
    List.sum_nil, List.length_cons, List.length_nil]
  norm_num

/-- Counterexample to claim C3: with `C0 = 100`, `g = 0.10`, `n = 5`,
Gordon terminal growth `0.02` and `r = 0.10`, the code's present value is
exactly `1775` (each discounted cash flow is exactly `100`, and the
discounted terminal value is exactly `1275`), which is not approximately
`1728.4` — it misses it by `46.6`, more than `40`. -/
theorem C3_counterexample :
    discounted_cash_flows (project_cash_flows 100 (1/10) 5)
        (calculate_terminal_value_gordon
          ((project_cash_flows 100 (1/10) 5).getLast?.getD 0) (2/100) (1/10)) (1/10) = 1775
      ∧ ¬ |(1775 : ℚ) - 17284/10| ≤ 40 := by
  constructor
  · exact dcf_concrete_eval
  · rw [show (1775 : ℚ) - 17284/10 = 466/10 by norm_num,
        abs_of_pos (by norm_num : (0 : ℚ) < 466/10)]
    norm_num

/-- Claim C3 (amended): for a non-empty series and `r > -1` the discounting
engine returns exactly `Σ_{i=1..n} CF_i / (1+r)^i + TV / (1+r)^n`; with
`C0 = 100`, `g = 0.10`, `n = 5`, terminal growth `0.02` and `r = 0.10` the
series is `[110, 121, 133.1, 146.41, 161.051]` and the present value is
exactly `1775` (not `≈ 1728.4` as the original claim stated). -/
theorem C3_discounting (cfs : List ℚ) (tv r : ℚ) (h1 : cfs ≠ []) (h2 : r > -1) :
    discounted_cash_flows cfs tv r
        = (∑ i in Finset.range cfs.length, cfs.getD i 0 / (1 + r) ^ (i + 1))
          + tv / (1 + r) ^ cfs.length
      ∧ project_cash_flows 100 (1/10) 5 = [110, 121, 1331/10, 14641/100, 161051/1000]
      ∧ discounted_cash_flows (project_cash_flows 100 (1/10) 5)
          (calculate_terminal_value_gordon
            ((project_cash_flows 100 (1/10) 5).getLast?.getD 0) (2/100) (1/10)) (1/10)
          = 1775 :=
  ⟨dcf_sum_formula cfs tv r, project_series_eval, dcf_concrete_eval⟩

/-- Witness for C3 (amended) at `cfs = [100]`, `tv = 0`, `r = 0`. -/
theorem C3_discounting_witness :
    discounted_cash_flows [(100 : ℚ)] 0 0
        = (∑ i in Finset.range ([(100 : ℚ)]).length,
            ([(100 : ℚ)]).getD i 0 / (1 + 0) ^ (i + 1))
          + 0 / (1 + 0) ^ ([(100 : ℚ)]).length
      ∧ project_cash_flows 100 (1/10) 5 = [110, 121, 1331/10, 14641/100, 161051/1000]
      ∧ discounted_cash_flows (project_cash_flows 100 (1/10) 5)
          (calculate_terminal_value_gordon
            ((project_cash_flows 100 (1/10) 5).getLast?.getD 0) (2/100) (1/10)) (1/10)
          = 1775 :=
  C3_discounting [100] 0 0 (by simp) (by norm_num)

/-- Claim C5: for `D0 > 0`, horizon `y ≥ 1` and `r > g2`, the multi-stage DDM
returns `Σ_{i=1..y} D0 (1+g1)^i / (1+r)^i + (D0 (1+g1)^y (1+g2) / (r - g2)) / (1+r)^y`;
at `D0 = 1`, `g1 = 0.08`, `g2 = 0.03`, `r = 0.09`, `y = 1` the value is exactly
`18`, within `0.01` of the stated `≈ 17.997`. -/
theorem C5_ddm_multi_stage (D0 g1 g2 r : ℚ) (y : ℕ)
    (hD : 0 < D0) (hy : 1 ≤ y) (hr : g2 < r) :
    ddm_multi_stage D0 g1 g2 r y
        = (∑ i in Finset.range y, D0 * (1 + g1) ^ (i + 1) / (1 + r) ^ (i + 1))
          + (D0 * (1 + g1) ^ y * (1 + g2) / (r - g2)) / (1 + r) ^ y
      ∧ ddm_multi_stage 1 (8/100) (3/100) (9/100) 1 = 18
      ∧ |(18 : ℚ) - 17997/1000| < 1/100 := by
  refine ⟨?_, ?_, ?_⟩
  · simp only [ddm_multi_stage]
    rw [sum_map_enum_eq (fun i cf => cf / (1 + r) ^ (i + 1))]
    rw [List.length_map, List.length_range]
    rw [range_map_getLast _ _ hy]
    have hy1 : y - 1 + 1 = y := by omega
    rw [hy1]
    congr 1
    exact Finset.sum_congr rfl fun i hi => by
      rw [range_map_getD _ _ _ (Finset.mem_range.mp hi)]
  · unfold ddm_multi_stage
    rw [show List.range 1 = [0] from rfl]
    norm_num [List.enum, List.enumFrom]
  · rw [show (18 : ℚ) - 17997/1000 = 3/1000 by norm_num,
        abs_of_pos (by norm_num : (0 : ℚ) < 3/1000)]
    norm_num

/-- Witness for C5 at `D0 = 1`, `g1 = 0.08`, `g2 = 0.03`, `r = 0.09`, `y = 1`. -/
theorem C5_ddm_multi_stage_witness :
    ddm_multi_stage 1 (8/100) (3/100) (9/100) 1
        = (∑ i in Finset.range 1,
            1 * (1 + 8/100) ^ (i + 1) / (1 + 9/100) ^ (i + 1))
          + (1 * (1 + 8/100) ^ 1 * (1 + 3/100) / (9/100 - 3/100)) / (1 + 9/100) ^ 1
      ∧ ddm_multi_stage 1 (8/100) (3/100) (9/100) 1 = 18
      ∧ |(18 : ℚ) - 17997/1000| < 1/100 :=
  C5_ddm_multi_stage 1 (8/100) (3/100) (9/100) 1 (by norm_num) (by norm_num) (by norm_num)

/-- Claim C6: the valuation label is `Undervalued` exactly when the intrinsic
value strictly exceeds the market price, and `Overvalued` otherwise; in
particular equality yields `Overvalued`.  The DCF comparison site applies the
same rule to the implied per-share price `total_value / shares_outstanding`. -/
theorem C6_valuation_label (v p total shares : ℚ) :
    (valuation_label v p = "Undervalued" ↔ p < v)
      ∧ (valuation_label v p = "Overvalued" ↔ ¬ p < v)
      ∧ valuation_label p p = "Overvalued"
      ∧ dcf_valuation_label total shares p = valuation_label (total / shares) p := by
  have hne : ("Undervalued" : String) ≠ "Overvalued" := by decide
  refine ⟨?_, ?_, ?_, rfl⟩
  · by_cases h : p < v
    · simp [valuation_label, h]
    · simp [valuation_label, h, Ne.symm hne]
  · by_cases h : p < v
    · simp [valuation_label, h, hne]
    · simp [valuation_label, h]
  · simp [valuation_label, lt_irrefl]

/-- Witness for C6 at intrinsic `3` vs price `2`, DCF total `10` over `5` shares. -/
theorem C6_valuation_label_witness :
    (valuation_label 3 2 = "Undervalued" ↔ (2 : ℚ) < 3)
      ∧ (valuation_label 3 2 = "Overvalued" ↔ ¬ (2 : ℚ) < 3)
      ∧ valuation_label 2 2 = "Overvalued"
      ∧ dcf_valuation_label 10 5 2 = valuation_label (10 / 5) 2 :=
  C6_valuation_label 3 2 10 5

/-- Embeds the ticker parsing of `src/app.py` (lines 178 and 318):
`ticker_list = [t.strip().upper() for t in tickers.split(",")][:5]`. -/
def ticker_list (tickers : String) : List String :=
  ((tickers.splitOn ",").map (fun t => t.trim.toUpper)).take 5

/-- Claim C10: only the first 5 parsed tickers survive: the processed list has
length `min (number of comma-separated parts) 5`, its first five positions are
the trimmed upper-cased parts, and every position from index 5 on is absent. -/
theorem C10_ticker_truncation (tickers : String) :
    (ticker_list tickers).length = min ((tickers.splitOn ",").length) 5
      ∧ ∀ i : ℕ,
          (ticker_list tickers)[i]?
            = if i < 5 then ((tickers.splitOn ",")[i]?).map (fun t => t.trim.toUpper)
              else none := by
  refine ⟨?_, fun i => ?_⟩
  · simp [ticker_list, Nat.min_comm]
  · simp only [ticker_list, List.getElem?_take, List.getElem?_map]

/-- Embeds the discount-rate axis of `render_sensitivity_heatmap` in
`src/visualizations/charts.py`:
`rates = np.linspace(discount_rate - 0.03, discount_rate + 0.03, 7)`,
seven evenly spaced points with step `0.01`. -/
def heatmap_rates (discount_rate : ℚ) : List ℚ :=
  (List.range 7).map (fun k : ℕ => discount_rate - 3/100 + (k : ℚ) * (1/100))

/-- Embeds the terminal-growth axis of `render_sensitivity_heatmap`:
`growths = np.linspace(terminal_growth - 0.01, terminal_growth + 0.01, 5)`,
five evenly spaced points with step `0.005`. -/
def heatmap_growths (terminal_growth : ℚ) : List ℚ :=
  (List.range 5).map (fun k : ℕ => terminal_growth - 1/100 + (k : ℚ) * (1/200))

/-- Embeds the grid `Z` of `render_sensitivity_heatmap`
(`src/visualizations/charts.py`, lines 16-21): for every sampled growth `g`
(outer, rows) and rate `r` (inner, columns),
`discounted_cash_flows(project_cash_flows(latest_fcf, g),
 calculate_terminal_value(project_cash_flows(latest_fcf, g)[-1], g, r), r)`,
with no per-cell guard of any kind. -/
def sensitivity_Z (latest_fcf discount_rate terminal_growth : ℚ) : List (List ℚ) :=
  (heatmap_growths terminal_growth).map (fun g =>
    (heatmap_rates discount_rate).map (fun r =>
      discounted_cash_flows (project_cash_flows latest_fcf g 5)
        (calculate_terminal_value_gordon
          ((project_cash_flows latest_fcf g 5).getLast?.getD 0) g r) r))

/-- Last element of a projected series (models Python `projected[-1]`). -/
lemma project_cash_flows_getLast (c0 g : ℚ) (n : ℕ) (h : 1 ≤ n) :
    (project_cash_flows c0 g n).getLast?.getD 0 = c0 * (1 + g) ^ n := by
  unfold project_cash_flows
  rw [range_map_getLast _ _ h]
  have hn : n - 1 + 1 = n := by omega
  rw [hn]

/-- The grid cell at sampled growth `0.0575` and sampled rate `0`
evaluates to a negative number. -/
lemma C9_cell_eval :
    discounted_cash_flows (project_cash_flows 100 (23/400) 5)
      (calculate_terminal_value_gordon
        ((project_cash_flows 100 (23/400) 5).getLast?.getD 0) (23/400) 0) 0 < 0 := by
  rw [project_cash_flows_getLast _ _ _ (by norm_num)]
  unfold discounted_cash_flows calculate_terminal_value_gordon project_cash_flows
  rw [show List.range 5 = [0, 1, 2, 3, 4] from rfl]
  simp only [List.map_cons, List.map_nil, List.enum, List.enumFrom, List.sum_cons,
    List.sum_nil, List.length_cons, List.length_nil]
  norm_num

/-- Claim C9: the spec requires a grid cell whose sampled parameters violate
the Gordon precondition to be surfaced as a missing value while the rest of
the grid is produced.  The code has no per-cell guard: with base inputs
`latest_fcf = 100`, `discount_rate = 0.03`, `terminal_growth = 0.0475`, the
full `5 × 7` grid of plain numbers is produced and the cell at sampled growth
`0.0575` and sampled rate `0` (growth above the rate) holds a plain negative
number rather than a missing value.  (When a sampled growth equals a sampled
rate, the Python code instead raises an unguarded ZeroDivisionError that
aborts the whole grid.) -/
theorem C9_code_eval :
    (sensitivity_Z 100 (3/100) (19/400)).length = 5
      ∧ ((sensitivity_Z 100 (3/100) (19/400)).getD 4 []).length = 7
      ∧ ((sensitivity_Z 100 (3/100) (19/400)).getD 4 []).getD 0 1 < 0 := by
  unfold sensitivity_Z heatmap_growths heatmap_rates
  rw [show List.range 5 = [0, 1, 2, 3, 4] from rfl,
      show List.range 7 = [0, 1, 2, 3, 4, 5, 6] from rfl]
  simp only [List.map_cons, List.map_nil, List.getD_cons_succ, List.getD_cons_zero,
    List.length_cons, List.length_nil]
  refine ⟨by trivial, by trivial, ?_⟩
  have hg : (19/400 - 1/100 + ((4 : ℕ) : ℚ) * (1/200)) = 23/400 := by norm_num
  have hr : (3/100 - 3/100 + ((0 : ℕ) : ℚ) * (1/100)) = 0 := by norm_num
  rw [hg, hr]
  exact C9_cell_eval

/-! Peer scoring (`src/app.py`, lines 368-375).

A peer's row holds one `Option ℚ` per selected metric; `none` is a missing
value (pandas NaN).  `valid_rows = clean_df[selected_metrics].dropna()` keeps
exactly the rows with no missing entry, `z_scores = (valid_rows -
valid_rows.mean()) / valid_rows.std()` standardises per column (sample
standard deviation, `ddof = 1`), `z_scores.fillna(0)` replaces the NaN that
arises when a column's standard deviation is zero (or undefined, for fewer
than two valid rows), and `score = z_scores.sum(axis=1)` aggregates per row.
The NaN-then-`fillna(0)` flow is modelled by the explicit zero-variance
branch of `zScoreFilled`; the score is `none` for a dropped row, mirroring
that `score` carries no entry for rows removed by `dropna`. -/

/-- A row survives `dropna()` exactly when it has no missing entry. -/
def rowComplete (row : List (Option ℚ)) : Bool := row.all (fun o => o.isSome)

/-- The rows kept by `dropna()`, with their values unwrapped. -/
def validRows (rows : List (List (Option ℚ))) : List (List ℚ) :=
  (rows.filter rowComplete).map (fun row => row.map (fun o => o.getD 0))

/-- Column `j` of the kept rows. -/
def colVals (vrows : List (List ℚ)) (j : ℕ) : List ℚ := vrows.map (fun r => r.getD j 0)

/-- Column mean, `valid_rows.mean()`. -/
def listMean (xs : List ℚ) : ℚ := xs.sum / (xs.length : ℚ)

/-- Sample variance with `ddof = 1`, the square of `valid_rows.std()`. -/
def sampleVar (xs : List ℚ) : ℚ :=
  (xs.map (fun x => (x - listMean xs) ^ 2)).sum / ((xs.length : ℚ) - 1)

/-- One entry of `z_scores.fillna(0)`: `(x - mean) / std` when the standard
deviation is a nonzero number, and `0` where pandas produces NaN (zero or
undefined standard deviation) and `fillna(0)` replaces it. -/
noncomputable def zScoreFilled (x : ℚ) (xs : List ℚ) : ℝ :=
  if sampleVar xs = 0 then 0
  else ((x : ℝ) - (listMean xs : ℝ)) / Real.sqrt ((sampleVar xs : ℝ))

/-- Per-peer aggregate `score = z_scores.sum(axis=1)` over the `m` selected
metrics; a peer dropped by `dropna()` has no score (`none`). -/
noncomputable def score_peers (rows : List (List (Option ℚ))) (m : ℕ) : List (Option ℝ) :=
  rows.map (fun row =>
    if rowComplete row then
      some (((List.range m).map (fun j =>
        zScoreFilled ((row.map (fun o => o.getD 0)).getD j 0)
          (colVals (validRows rows) j))).sum)
    else none)

/-- Counterexample to claim C7: peer A `[none, some 1]` is missing the first
selected metric while peers B and C have both metrics.  The claim says A is
still assigned an aggregate (with the missing metric contributing 0); the
code's `dropna()` removes A's whole row, so A receives no score at all. -/
theorem C7_counterexample :
    (score_peers [[none, some 1], [some 1, some 2], [some 2, some 4]] 2).getD 0 (some 0)
      = none := by
  rfl

/-- Claim C7 (amended): a peer with any missing selected metric is excluded
from scoring entirely (`dropna()` drops the whole row): it receives no
aggregate, and its values contribute nothing to the other peers' z-scores —
the remaining peers are scored exactly as if the incomplete peer were absent,
so means and standard deviations are computed over only the peers that have
values for all selected metrics. -/
theorem C7_dropna_excludes (a : List (Option ℚ)) (rest : List (List (Option ℚ))) (m : ℕ)
    (h : rowComplete a = false) :
    score_peers (a :: rest) m = none :: score_peers rest m := by
  have hv : validRows (a :: rest) = validRows rest := by
    unfold validRows
    rw [List.filter_cons, if_neg (by simp [h])]
  unfold score_peers
  rw [List.map_cons, if_neg (by simp [h]), hv]

/-- Witness for C7 (amended) with one incomplete peer and no other peers. -/
theorem C7_dropna_excludes_witness :
    score_peers [[some 1, none]] 1 = none :: score_peers [] 1 :=
  C7_dropna_excludes [some 1, none] [] 1 (by rfl)

/-- The mean of a constant non-empty list. -/
lemma listMean_const (c : ℚ) (xs : List ℚ) (hne : xs ≠ []) (h : ∀ x ∈ xs, x = c) :
    listMean xs = c := by
  unfold listMean
  rw [List.sum_eq_card_nsmul xs c h, nsmul_eq_mul]
  have hlen : (xs.length : ℚ) ≠ 0 := by
    have h0 : xs.length ≠ 0 := fun hl => hne (List.length_eq_zero.mp hl)
    exact_mod_cast h0
  field_simp

/-- The sample variance of a constant list is zero. -/
lemma sampleVar_const (c : ℚ) (xs : List ℚ) (h : ∀ x ∈ xs, x = c) :
    sampleVar xs = 0 := by
  rcases eq_or_ne xs [] with rfl | hne
  · simp [sampleVar]
  · unfold sampleVar
    have hmean := listMean_const c xs hne h
    have hz : (xs.map (fun x => (x - listMean xs) ^ 2)).sum = 0 := by
      apply List.sum_eq_zero
      intro y hy
      rw [List.mem_map] at hy
      obtain ⟨x, hx, rfl⟩ := hy
      rw [h x hx, hmean]
      ring
    rw [hz, zero_div]

/-- Claim C8: when a selected metric has the same value for every scored peer
(zero variance, including the two-peer equal-values case), its z-score entry
is `0` for every scored peer — a real number, never NaN and never a
division-by-zero failure — so it contributes 0 to every aggregate. -/
theorem C8_zero_variance (rows : List (List (Option ℚ))) (j : ℕ) (c : ℚ)
    (hconst : ∀ v ∈ validRows rows, v.getD j 0 = c) :
    ∀ v ∈ validRows rows, zScoreFilled (v.getD j 0) (colVals (validRows rows) j) = 0 := by
  intro v hv
  have hvar : sampleVar (colVals (validRows rows) j) = 0 := by
    apply sampleVar_const c
    intro x hx
    unfold colVals at hx
    rw [List.mem_map] at hx
    obtain ⟨w, hw, rfl⟩ := hx
    exact hconst w hw
  unfold zScoreFilled
  rw [if_pos hvar]

/-- Witness for C8: two peers, one metric, both values equal to `5`. -/
theorem C8_zero_variance_witness :
    zScoreFilled (([(5 : ℚ)]).getD 0 0) (colVals (validRows [[some 5], [some 5]]) 0) = 0 :=
  C8_zero_variance [[some 5], [some 5]] 0 5 (by decide) [5] (by decide)

end ValuationToolkit
